import Mathlib

/-!
Shallow embedding of the CRM lead-distribution system
(`models.py`, `schemas.py`, `distribution.py`, `crud.py`).

The database session is modelled as an explicit record of table contents
(`DB`); SQLAlchemy queries become list traversals over it.  The float drawn
by `random.uniform` is modelled as a rational parameter.  A possible
failure of the weight/load read after source validation (the broad
`except Exception` arm of `select_operator`) is modelled by a boolean
failure-injection flag on `get_available_operators`.
-/

namespace CRM

/-- `models.Operator`: id, name, `is_active` flag, `max_load` capacity. -/
structure OperatorT where
  id : Nat
  name : String
  is_active : Bool
  max_load : Int
  deriving DecidableEq

/-- `models.Source`: id and name (description omitted, never read by the engine). -/
structure SourceT where
  id : Nat
  name : String
  deriving DecidableEq

/-- `models.OperatorSourceWeight`: one weight row of the per-source configuration. -/
structure OperatorSourceWeight where
  operator_id : Nat
  source_id : Nat
  weight : Int
  deriving DecidableEq

/-- `models.Contact`: a work item; `operator_id` is nullable, `status` a string
(`"new"` on creation). -/
structure ContactT where
  lead_id : Nat
  source_id : Nat
  operator_id : Option Nat
  status : String
  deriving DecidableEq

/-- The database state: contents of the four tables the engine touches. -/
structure DB where
  operators : List OperatorT
  sources : List SourceT
  weights : List OperatorSourceWeight
  contacts : List ContactT
  deriving DecidableEq

/-- `distribution.DistributionError` taxonomy: `SourceNotFoundError`, or any
other exception raised while reading weights/loads (modelled abstractly). -/
inductive DistErr where
  | sourceNotFound
  | transient
  deriving DecidableEq

/-- The status filter `Contact.status.in_(["new", "in_progress"])`. -/
def activeStatus (s : String) : Bool :=
  s == "new" || s == "in_progress"

/-- The load subquery of `get_available_operators` evaluated for one operator id:
count of contacts assigned to it whose status is `new` or `in_progress`
(`func.count` grouped by `Contact.operator_id`, coalesced to 0). -/
def current_load (db : DB) (opId : Nat) : Nat :=
  (db.contacts.filter (fun c => decide (c.operator_id = some opId) && activeStatus c.status)).length

/-- The engine-internal candidate view `{'operator': .., 'weight': .., 'current_load': ..}`. -/
structure Candidate where
  operator : OperatorT
  weight : Int
  current_load : Nat
  deriving DecidableEq

/-- Whether `db.query(Source).filter(Source.id == source_id).first()` finds a row:
the success condition of `DistributionEngine.validate_source`. -/
def source_exists (db : DB) (src : Nat) : Prop :=
  ∃ s ∈ db.sources, s.id = src

instance (db : DB) (src : Nat) : Decidable (source_exists db src) :=
  List.decidableBEx _ db.sources

/-- The joined rows of the main query in `get_available_operators`: weight rows
for the source joined with their active operators, each paired with the
coalesced current load. -/
def operators_data (db : DB) (src : Nat) : List Candidate :=
  (db.weights.filter (fun w => decide (w.source_id = src))).flatMap (fun w =>
    (db.operators.filter (fun op => decide (op.id = w.operator_id) && op.is_active)).map
      (fun op => ⟨op, w.weight, current_load db op.id⟩))

/-- `DistributionEngine.get_available_operators`: validate the source, then
produce the joined rows filtered by `current_load < operator.max_load`.
`fail = true` injects a non-`SourceNotFoundError` exception in the
weight/load read (after source validation succeeded). -/
def get_available_operators (db : DB) (src : Nat) (fail : Bool) :
    Except DistErr (List Candidate) :=
  if source_exists db src then
    if fail then .error .transient
    else .ok ((operators_data db src).filter
      (fun c => decide ((c.current_load : Int) < c.operator.max_load)))
  else .error .sourceNotFound

/-- `total_weight = sum(op['weight'] for op in available_operators)`. -/
def total_weight (cands : List Candidate) : Int :=
  (cands.map (fun c => c.weight)).sum

/-- The accumulating walk of `select_operator`: add each candidate's weight to
the running sum and return the first candidate once `random_value <= current_weight`;
`none` when the walk is exhausted without a match. -/
def pickLoop : List Candidate → ℚ → ℚ → Option OperatorT
  | [], _, _ => none
  | c :: rest, r, cum =>
    if r ≤ cum + (c.weight : ℚ) then some c.operator
    else pickLoop rest r (cum + (c.weight : ℚ))

/-- `DistributionEngine.select_operator`.  `r` is the value drawn by
`random.uniform(0, total_weight)`.  `SourceNotFoundError` is re-raised;
any other exception from candidate retrieval is logged and turned into
`None`; an empty candidate list gives `None`; `total_weight <= 0` gives the
first candidate; otherwise the weighted walk runs, with the exhausted-walk
fallback returning `available_operators[0]`. -/
def select_operator (db : DB) (src : Nat) (fail : Bool) (r : ℚ) :
    Except DistErr (Option OperatorT) :=
  match get_available_operators db src fail with
  | .error .sourceNotFound => .error .sourceNotFound
  | .error _ => .ok none
  | .ok cands =>
    match cands with
    | [] => .ok none
    | c0 :: _ =>
      if total_weight cands ≤ 0 then .ok (some c0.operator)
      else
        match pickLoop cands r 0 with
        | some op => .ok (some op)
        | none => .ok (some c0.operator)

/-- `schemas.OperatorSourceWeightBase`: `weight: int = Field(gt=0, le=1000)` —
the condition under which the public distribution-config schema accepts a weight. -/
def weight_accepted (w : Int) : Prop :=
  0 < w ∧ w ≤ 1000

/-- `schemas.OperatorBase`: `max_load: int = Field(gt=0, le=1000)` — the
condition under which the public operator schema accepts a max load. -/
def max_load_accepted (m : Int) : Prop :=
  0 < m ∧ m ≤ 1000

/-- `crud.create_contact` restricted to the state the engine reads: select an
operator for the source and append a contact with default status `"new"`
assigned to it (or unassigned).  On `SourceNotFoundError` (or any other
exception) an `HTTPException` is raised and, after rollback, no contact is
recorded, so the state is unchanged.  The lead machinery does not touch the
tables the engine reads; `lead_id` is recorded as 0. -/
def create_contact (db : DB) (src : Nat) (r : ℚ) : DB :=
  match select_operator db src false r with
  | .error _ => db
  | .ok opt =>
    { db with contacts := db.contacts ++ [⟨0, src, opt.map (fun op => op.id), "new"⟩] }

/-- Sequential execution: one `create_contact` per draw, each contact durably
recorded before the next selection starts. -/
def run (db : DB) (src : Nat) (rs : List ℚ) : DB :=
  rs.foldl (fun d r => create_contact d src r) db

/-- `schemas.OperatorSourceWeightCreate`: one entry of a distribution config. -/
structure OperatorSourceWeightCreate where
  operator_id : Nat
  source_id : Nat
  weight : Int
  deriving DecidableEq

/-- `schemas.DistributionConfig`: a source id plus the list of weight entries. -/
structure DistributionConfig where
  source_id : Nat
  operators : List OperatorSourceWeightCreate
  deriving DecidableEq

/-- `HTTPException` outcomes of `crud.set_distribution_config`: 404 for a
missing source or operator, 500 when the commit fails (`IntegrityError` on
the unique `(operator_id, source_id)` index). -/
inductive HError where
  | notFound
  | internalError
  deriving DecidableEq

/-- The key of the unique index `ix_operator_source_unique` on
`operator_source_weights`. -/
def wkey (w : OperatorSourceWeight) : Nat × Nat :=
  (w.operator_id, w.source_id)

/-- The rows `OperatorSourceWeight(**op_weight.dict())` built from a config's
entries: each row carries the entry's own `operator_id`, `source_id`, `weight`. -/
def cfgRows (cfg : DistributionConfig) : List OperatorSourceWeight :=
  cfg.operators.map (fun o => ⟨o.operator_id, o.source_id, o.weight⟩)

/-- The stored weight rows for one source (the query of
`crud.get_distribution_config`). -/
def weightsFor (db : DB) (src : Nat) : List OperatorSourceWeight :=
  db.weights.filter (fun w => decide (w.source_id = src))

/-- `crud.set_distribution_config`: 404 if the source or any referenced
operator does not exist; otherwise, in one transaction, delete the rows with
`source_id == config.source_id` and insert the rows built from the entries.
The commit succeeds unless an inserted row collides on the unique
`(operator_id, source_id)` index with another inserted row or a kept row;
on `IntegrityError` the transaction is rolled back (state unchanged) and a
500 is raised.  Returns the new state and the inserted rows. -/
def set_distribution_config (db : DB) (cfg : DistributionConfig) :
    Except HError (DB × List OperatorSourceWeight) :=
  if source_exists db cfg.source_id then
    if ∀ o ∈ cfg.operators, ∃ op ∈ db.operators, op.id = o.operator_id then
      if ((cfgRows cfg).map wkey).Nodup ∧
          ∀ f ∈ cfgRows cfg, wkey f ∉
            (db.weights.filter (fun w => !decide (w.source_id = cfg.source_id))).map wkey then
        .ok ({ db with weights :=
          db.weights.filter (fun w => !decide (w.source_id = cfg.source_id)) ++ cfgRows cfg },
          cfgRows cfg)
      else .error .internalError
    else .error .notFound
  else .error .notFound

/-- Operator A of the sequential scenario: weight 70, `max_load` 3, active. -/
def opA : OperatorT := ⟨1, "A", true, 3⟩

/-- Operator B of the sequential scenario: weight 30, `max_load` 2, active. -/
def opB : OperatorT := ⟨2, "B", true, 2⟩

/-- The sequential scenario state: source S (id 1) configured with A(70) and
B(30), no contacts yet. -/
def scenarioDB : DB :=
  ⟨[opA, opB], [⟨1, "S"⟩], [⟨1, 1, 70⟩, ⟨2, 1, 30⟩], []⟩

/-! ### Basic lemmas about candidate construction and selection -/

lemma mem_operators_data {db : DB} {src : Nat} {c : Candidate}
    (h : c ∈ operators_data db src) :
    c.operator ∈ db.operators ∧ c.operator.is_active = true ∧
    (∃ w ∈ db.weights, w.operator_id = c.operator.id ∧ w.source_id = src ∧
      w.weight = c.weight) ∧
    c.current_load = current_load db c.operator.id := by
  simp only [operators_data, List.mem_flatMap, List.mem_filter, List.mem_map,
    Bool.and_eq_true, decide_eq_true_eq] at h
  obtain ⟨w, ⟨hwmem, hwsrc⟩, op, ⟨hopmem, hopid, hopact⟩, rfl⟩ := h
  exact ⟨hopmem, hopact, ⟨w, hwmem, hopid.symm, hwsrc, rfl⟩, rfl⟩

lemma get_available_ok_iff {db : DB} {src : Nat} {fail : Bool}
    {cands : List Candidate} :
    get_available_operators db src fail = .ok cands ↔
      source_exists db src ∧ fail = false ∧
      cands = (operators_data db src).filter
        (fun c => decide ((c.current_load : Int) < c.operator.max_load)) := by
  unfold get_available_operators
  by_cases hs : source_exists db src <;> cases fail <;>
    simp [hs, eq_comm]

lemma get_available_ok_mem {db : DB} {src : Nat} {fail : Bool}
    {cands : List Candidate} {c : Candidate}
    (h : get_available_operators db src fail = .ok cands) (hc : c ∈ cands) :
    c ∈ operators_data db src ∧ (c.current_load : Int) < c.operator.max_load := by
  obtain ⟨-, -, rfl⟩ := get_available_ok_iff.mp h
  have := List.mem_filter.mp hc
  exact ⟨this.1, of_decide_eq_true this.2⟩

/-! Equation lemmas unfolding `select_operator` once the candidate-retrieval
outcome is known. -/

lemma select_of_snf {db : DB} {src : Nat} {fail : Bool} (r : ℚ)
    (hga : get_available_operators db src fail = .error .sourceNotFound) :
    select_operator db src fail r = .error .sourceNotFound := by
  unfold select_operator
  rw [hga]

lemma select_of_transient {db : DB} {src : Nat} {fail : Bool} (r : ℚ)
    (hga : get_available_operators db src fail = .error .transient) :
    select_operator db src fail r = .ok none := by
  unfold select_operator
  rw [hga]

lemma select_of_nil {db : DB} {src : Nat} {fail : Bool} (r : ℚ)
    (hga : get_available_operators db src fail = .ok []) :
    select_operator db src fail r = .ok none := by
  unfold select_operator
  rw [hga]

lemma select_of_cons {db : DB} {src : Nat} {fail : Bool} (r : ℚ)
    {c0 : Candidate} {rest : List Candidate}
    (hga : get_available_operators db src fail = .ok (c0 :: rest)) :
    select_operator db src fail r =
      (if total_weight (c0 :: rest) ≤ 0 then Except.ok (some c0.operator)
       else match pickLoop (c0 :: rest) r 0 with
         | some op => Except.ok (some op)
         | none => Except.ok (some c0.operator)) := by
  unfold select_operator
  rw [hga]

lemma pickLoop_mem {cs : List Candidate} {r cum : ℚ} {op : OperatorT}
    (h : pickLoop cs r cum = some op) : ∃ c ∈ cs, c.operator = op := by
  induction cs generalizing cum with
  | nil => simp [pickLoop] at h
  | cons c rest ih =>
    unfold pickLoop at h
    by_cases hle : r ≤ cum + (c.weight : ℚ)
    · rw [if_pos hle] at h
      exact ⟨c, List.mem_cons_self .., Option.some.inj h⟩
    · rw [if_neg hle] at h
      obtain ⟨c', hc', hop⟩ := ih h
      exact ⟨c', List.mem_cons_of_mem _ hc', hop⟩

lemma select_some_mem {db : DB} {src : Nat} {fail : Bool} {r : ℚ} {op : OperatorT}
    (h : select_operator db src fail r = .ok (some op)) :
    ∃ cands, get_available_operators db src fail = .ok cands ∧
      ∃ c ∈ cands, c.operator = op := by
  rcases hga : get_available_operators db src fail with e | cands
  · rcases e with _ | _
    · rw [select_of_snf r hga] at h
      simp at h
    · rw [select_of_transient r hga] at h
      simp at h
  · refine ⟨cands, rfl, ?_⟩
    rcases cands with _ | ⟨c0, rest⟩
    · rw [select_of_nil r hga] at h
      simp at h
    · rw [select_of_cons r hga] at h
      by_cases ht : total_weight (c0 :: rest) ≤ 0
      · rw [if_pos ht] at h
        exact ⟨c0, List.mem_cons_self .., Option.some.inj (Except.ok.inj h)⟩
      · rw [if_neg ht] at h
        rcases hp : pickLoop (c0 :: rest) r 0 with _ | op'
        · rw [hp] at h
          exact ⟨c0, List.mem_cons_self .., Option.some.inj (Except.ok.inj h)⟩
        · rw [hp] at h
          obtain ⟨c, hc, hcop⟩ := pickLoop_mem hp
          obtain rfl : op' = op := Option.some.inj (Except.ok.inj h)
          exact ⟨c, hc, hcop⟩

/-- Core eligibility fact: a selected operator was a candidate, hence active,
configured for the source, and strictly under capacity at selection time. -/
lemma select_some_eligible {db : DB} {src : Nat} {fail : Bool} {r : ℚ}
    {op : OperatorT} (h : select_operator db src fail r = .ok (some op)) :
    op ∈ db.operators ∧ op.is_active = true ∧
    (∃ w ∈ db.weights, w.operator_id = op.id ∧ w.source_id = src) ∧
    (current_load db op.id : Int) < op.max_load := by
  obtain ⟨cands, hga, c, hc, rfl⟩ := select_some_mem h
  obtain ⟨hmem, hlt⟩ := get_available_ok_mem hga hc
  obtain ⟨hop, hact, ⟨w, hw, hwid, hwsrc, _⟩, hload⟩ := mem_operators_data hmem
  rw [hload] at hlt
  exact ⟨hop, hact, ⟨w, hw, hwid, hwsrc⟩, hlt⟩

/-! ### Claim theorems -/

/-- C1: for every source id for which the source exists, every candidate in
the list returned by `get_available_operators` satisfies all three
conditions: its operator's `is_active` flag is true, it has a weight row
configured for that source, and its current load (count of its contacts with
status in {new, in_progress}) is strictly less than its operator's
`max_load`. -/
theorem C1_candidates_eligible (db : DB) (src : Nat) (cands : List Candidate)
    (h : get_available_operators db src false = .ok cands) :
    ∀ c ∈ cands, c.operator.is_active = true ∧
      (∃ w ∈ db.weights, w.operator_id = c.operator.id ∧ w.source_id = src) ∧
      (current_load db c.operator.id : Int) < c.operator.max_load := by
  intro c hc
  obtain ⟨hmem, hlt⟩ := get_available_ok_mem h hc
  obtain ⟨-, hact, ⟨w, hw, hwid, hwsrc, -⟩, hload⟩ := mem_operators_data hmem
  rw [hload] at hlt
  exact ⟨hact, ⟨w, hw, hwid, hwsrc⟩, hlt⟩

theorem C1_witness :
    (⟨⟨1, "O", true, 5⟩, 10, 0⟩ : Candidate).operator.is_active = true ∧
    (∃ w ∈ (⟨[⟨1, "O", true, 5⟩], [⟨1, "S"⟩], [⟨1, 1, 10⟩], []⟩ : DB).weights,
      w.operator_id = (⟨⟨1, "O", true, 5⟩, 10, 0⟩ : Candidate).operator.id ∧
      w.source_id = 1) ∧
    (current_load ⟨[⟨1, "O", true, 5⟩], [⟨1, "S"⟩], [⟨1, 1, 10⟩], []⟩
        (⟨⟨1, "O", true, 5⟩, 10, 0⟩ : Candidate).operator.id : Int) <
      (⟨⟨1, "O", true, 5⟩, 10, 0⟩ : Candidate).operator.max_load :=
  C1_candidates_eligible ⟨[⟨1, "O", true, 5⟩], [⟨1, "S"⟩], [⟨1, 1, 10⟩], []⟩ 1
    [⟨⟨1, "O", true, 5⟩, 10, 0⟩] rfl _ (by simp)

/-- C2: for every source id that does not correspond to an existing source,
`select_operator` surfaces `SourceNotFoundError` (never `None`), this
happens regardless of the rest of the state or of a failure of the
weight/load read (it is checked first), and the error reaches the caller
unchanged. -/
theorem C2_unknown_source (db : DB) (src : Nat) (fail : Bool) (r : ℚ)
    (h : ¬ source_exists db src) :
    select_operator db src fail r = .error .sourceNotFound ∧
    get_available_operators db src fail = .error .sourceNotFound := by
  have hga : get_available_operators db src fail = .error .sourceNotFound := by
    unfold get_available_operators
    rw [if_neg h]
  exact ⟨select_of_snf r hga, hga⟩

theorem C2_witness :
    select_operator ⟨[], [], [], []⟩ 7 false 0 = .error .sourceNotFound ∧
    get_available_operators ⟨[], [], [], []⟩ 7 false = .error .sourceNotFound :=
  C2_unknown_source ⟨[], [], [], []⟩ 7 false 0 (by decide)

/-- C3: for every source that exists but whose candidate list is empty,
`select_operator` returns `None` (`.ok none`) and raises no error. -/
theorem C3_empty_candidates_none (db : DB) (src : Nat) (r : ℚ)
    (h : get_available_operators db src false = .ok []) :
    select_operator db src false r = .ok none :=
  select_of_nil r h

theorem C3_witness :
    select_operator ⟨[], [⟨1, "S"⟩], [], []⟩ 1 false 0 = .ok none :=
  C3_empty_candidates_none ⟨[], [⟨1, "S"⟩], [], []⟩ 1 0 rfl

/-- C5: once the source is confirmed to exist, an injected failure of the
candidate retrieval is converted to `None`, and no selection outcome is an
error: every result is a value (an operator or `None`). -/
theorem C5_only_snf_escapes (db : DB) (src : Nat) (r : ℚ)
    (h : source_exists db src) :
    select_operator db src true r = .ok none ∧
    ∀ fail : Bool, ∃ v, select_operator db src fail r = .ok v := by
  have htr : get_available_operators db src true = .error .transient := by
    unfold get_available_operators
    rw [if_pos h]
    rfl
  refine ⟨select_of_transient r htr, ?_⟩
  intro fail
  cases fail
  · rcases hga : get_available_operators db src false with e | cands
    · rcases e
      · exfalso
        unfold get_available_operators at hga
        rw [if_pos h] at hga
        simp at hga
      · exact ⟨none, select_of_transient r hga⟩
    · rcases cands with _ | ⟨c0, rest⟩
      · exact ⟨none, select_of_nil r hga⟩
      · by_cases ht : total_weight (c0 :: rest) ≤ 0
        · exact ⟨some c0.operator, by rw [select_of_cons r hga, if_pos ht]⟩
        · rcases hp : pickLoop (c0 :: rest) r 0 with _ | op
          · exact ⟨some c0.operator, by rw [select_of_cons r hga, if_neg ht, hp]⟩
          · exact ⟨some op, by rw [select_of_cons r hga, if_neg ht, hp]⟩
  · exact ⟨none, select_of_transient r htr⟩

theorem C5_witness :
    select_operator ⟨[], [⟨1, "S"⟩], [], []⟩ 1 true 0 = .ok none :=
  (C5_only_snf_escapes ⟨[], [⟨1, "S"⟩], [], []⟩ 1 0 (by decide)).1

/-- C7: with exactly one eligible candidate of positive weight, selection
returns that candidate's operator for every value of the random draw. -/
theorem C7_single_candidate (db : DB) (src : Nat) (c : Candidate) (r : ℚ)
    (h : get_available_operators db src false = .ok [c]) (hw : 0 < c.weight) :
    select_operator db src false r = .ok (some c.operator) := by
  rw [select_of_cons r h]
  have ht : ¬ total_weight [c] ≤ 0 := by
    simp only [total_weight, List.map_cons, List.map_nil, List.sum_cons,
      List.sum_nil, add_zero]
    omega
  rw [if_neg ht]
  by_cases hr : r ≤ 0 + (c.weight : ℚ)
  · rw [show pickLoop [c] r 0 = some c.operator from by
      simp only [pickLoop]
      rw [if_pos hr]]
  · rw [show pickLoop [c] r 0 = none from by
      simp only [pickLoop]
      rw [if_neg hr]]

theorem C7_witness :
    select_operator ⟨[⟨1, "O", true, 5⟩], [⟨1, "S"⟩], [⟨1, 1, 10⟩], []⟩ 1 false 100 =
      .ok (some ⟨1, "O", true, 5⟩) :=
  C7_single_candidate ⟨[⟨1, "O", true, 5⟩], [⟨1, "S"⟩], [⟨1, 1, 10⟩], []⟩ 1
    ⟨⟨1, "O", true, 5⟩, 10, 0⟩ 100 rfl (by decide)

/-- C8: for every non-empty candidate list with `total_weight <= 0`,
selection deterministically returns the first candidate's operator,
independent of the random draw, as a defined value and not an error. -/
theorem C8_degenerate_weights (db : DB) (src : Nat) (c0 : Candidate)
    (rest : List Candidate) (r : ℚ)
    (h : get_available_operators db src false = .ok (c0 :: rest))
    (ht : total_weight (c0 :: rest) ≤ 0) :
    select_operator db src false r = .ok (some c0.operator) := by
  rw [select_of_cons r h, if_pos ht]

theorem C8_witness :
    select_operator ⟨[⟨1, "O", true, 5⟩], [⟨1, "S"⟩], [⟨1, 1, -4⟩], []⟩ 1 false 2 =
      .ok (some ⟨1, "O", true, 5⟩) :=
  C8_degenerate_weights ⟨[⟨1, "O", true, 5⟩], [⟨1, "S"⟩], [⟨1, 1, -4⟩], []⟩ 1
    ⟨⟨1, "O", true, 5⟩, -4, 0⟩ [] 2 rfl (by decide)

/-- C4 counterexample: with two distinct candidates of weight 1 each and a
draw of 3 the walk is exhausted without a match, and selection returns the
FIRST candidate's operator (`available_operators[0]`), not the last one as
the claim states. -/
theorem C4_counterexample :
    get_available_operators
        ⟨[⟨1, "A", true, 10⟩, ⟨2, "B", true, 10⟩], [⟨1, "S"⟩],
          [⟨1, 1, 1⟩, ⟨2, 1, 1⟩], []⟩ 1 false =
      .ok [⟨⟨1, "A", true, 10⟩, 1, 0⟩, ⟨⟨2, "B", true, 10⟩, 1, 0⟩] ∧
    pickLoop [⟨⟨1, "A", true, 10⟩, 1, 0⟩, ⟨⟨2, "B", true, 10⟩, 1, 0⟩] 3 0 = none ∧
    select_operator
        ⟨[⟨1, "A", true, 10⟩, ⟨2, "B", true, 10⟩], [⟨1, "S"⟩],
          [⟨1, 1, 1⟩, ⟨2, 1, 1⟩], []⟩ 1 false 3 =
      .ok (some ⟨1, "A", true, 10⟩) ∧
    (⟨1, "A", true, 10⟩ : OperatorT) ≠ ⟨2, "B", true, 10⟩ := by
  have hga : get_available_operators
      ⟨[⟨1, "A", true, 10⟩, ⟨2, "B", true, 10⟩], [⟨1, "S"⟩],
        [⟨1, 1, 1⟩, ⟨2, 1, 1⟩], []⟩ 1 false =
      .ok [⟨⟨1, "A", true, 10⟩, 1, 0⟩, ⟨⟨2, "B", true, 10⟩, 1, 0⟩] := rfl
  have hp : pickLoop
      [⟨⟨1, "A", true, 10⟩, 1, 0⟩, ⟨⟨2, "B", true, 10⟩, 1, 0⟩] 3 0 = none := by
    norm_num [pickLoop]
  refine ⟨hga, hp, ?_, by decide⟩
  rw [select_of_cons 3 hga, if_neg (by decide), hp]

/-- C4 (amended): in the weighted pick over a non-empty candidate list, if
the accumulating walk is exhausted without any candidate's running sum
matching the drawn value, the operator of the FIRST candidate in the
supplied order is returned; for every non-empty candidate list the pick
returns an operator and never throws. -/
theorem C4_fallback_first (db : DB) (src : Nat) (fail : Bool) (r : ℚ)
    (c0 : Candidate) (rest : List Candidate)
    (h : get_available_operators db src fail = .ok (c0 :: rest)) :
    (∃ op, select_operator db src fail r = .ok (some op)) ∧
    (pickLoop (c0 :: rest) r 0 = none →
      select_operator db src fail r = .ok (some c0.operator)) := by
  constructor
  · by_cases ht : total_weight (c0 :: rest) ≤ 0
    · exact ⟨c0.operator, by rw [select_of_cons r h, if_pos ht]⟩
    · rcases hp : pickLoop (c0 :: rest) r 0 with _ | op
      · exact ⟨c0.operator, by rw [select_of_cons r h, if_neg ht, hp]⟩
      · exact ⟨op, by rw [select_of_cons r h, if_neg ht, hp]⟩
  · intro hp
    rw [select_of_cons r h]
    by_cases ht : total_weight (c0 :: rest) ≤ 0
    · rw [if_pos ht]
    · rw [if_neg ht, hp]

theorem C4_witness :
    select_operator ⟨[⟨3, "C", true, 7⟩], [⟨2, "T"⟩], [⟨3, 2, 5⟩], []⟩ 2 false 9 =
      .ok (some ⟨3, "C", true, 7⟩) :=
  (C4_fallback_first ⟨[⟨3, "C", true, 7⟩], [⟨2, "T"⟩], [⟨3, 2, 5⟩], []⟩ 2 false 9
    ⟨⟨3, "C", true, 7⟩, 5, 0⟩ [] rfl).2 (by norm_num [pickLoop])

instance (w : Int) : Decidable (weight_accepted w) := by
  unfold weight_accepted
  infer_instance

instance (m : Int) : Decidable (max_load_accepted m) := by
  unfold max_load_accepted
  infer_instance

/-- C10: the public distribution-config schema accepts exactly the integer
weights in (0, 1000], the operator schema only accepts strictly positive
max loads, and consequently, when every stored weight row passed the
schema, a non-empty candidate list has `total_weight > 0`, so the
degenerate `total_weight <= 0` branch of the weighted pick is unreachable. -/
theorem C10_schema_guards (db : DB) (src : Nat) (cands : List Candidate)
    (hv : ∀ w ∈ db.weights, weight_accepted w.weight)
    (h : get_available_operators db src false = .ok cands) (hne : cands ≠ []) :
    (∀ w, weight_accepted w ↔ 0 < w ∧ w ≤ 1000) ∧
    (∀ m, max_load_accepted m → 0 < m) ∧
    ¬ total_weight cands ≤ 0 := by
  refine ⟨fun w => Iff.rfl, fun m hm => hm.1, ?_⟩
  have hpos : ∀ x ∈ cands.map (fun c => c.weight), 0 < x := by
    intro x hx
    obtain ⟨c, hc, rfl⟩ := List.mem_map.mp hx
    obtain ⟨hmem, -⟩ := get_available_ok_mem h hc
    obtain ⟨-, -, ⟨w, hw, -, -, hww⟩, -⟩ := mem_operators_data hmem
    exact hww ▸ (hv w hw).1
  have hsum : 0 < (cands.map (fun c => c.weight)).sum :=
    List.sum_pos _ hpos (fun hmap => hne (by simpa using hmap))
  simp only [total_weight, not_le]
  exact hsum

theorem C10_witness :
    ¬ total_weight [⟨⟨1, "O", true, 5⟩, 10, 0⟩] ≤ 0 :=
  (C10_schema_guards ⟨[⟨1, "O", true, 5⟩], [⟨1, "S"⟩], [⟨1, 1, 10⟩], []⟩ 1
    [⟨⟨1, "O", true, 5⟩, 10, 0⟩] (by decide) rfl (by decide)).2.2

/-- C9 counterexample: a successful call whose single entry carries
`source_id = 2` while the config targets source 1.  The entry is stored
under source 2, so afterwards the stored rows for source 1 (the source of
the call) are empty and differ from the supplied set. -/
theorem C9_counterexample :
    set_distribution_config
        ⟨[⟨1, "O", true, 10⟩], [⟨1, "S1"⟩, ⟨2, "S2"⟩], [], []⟩
        ⟨1, [⟨1, 2, 10⟩]⟩ =
      .ok (⟨[⟨1, "O", true, 10⟩], [⟨1, "S1"⟩, ⟨2, "S2"⟩], [⟨1, 2, 10⟩], []⟩,
        [⟨1, 2, 10⟩]) ∧
    weightsFor ⟨[⟨1, "O", true, 10⟩], [⟨1, "S1"⟩, ⟨2, "S2"⟩], [⟨1, 2, 10⟩], []⟩ 1 = [] ∧
    cfgRows ⟨1, [⟨1, 2, 10⟩]⟩ = [⟨1, 2, 10⟩] ∧
    ([] : List OperatorSourceWeight) ≠ [⟨1, 2, 10⟩] :=
  ⟨rfl, rfl, rfl, by decide⟩

/-- C9 (amended): a successful `set_distribution_config` call whose entries
all carry the call's `source_id` replaces that source's configuration
atomically: afterwards the stored rows for that source are exactly the
supplied rows (no stale row survives), rows of other sources are untouched,
and uniqueness of the `(operator_id, source_id)` key is preserved. -/
theorem C9_replace_config (db : DB) (cfg : DistributionConfig)
    (db' : DB) (fresh : List OperatorSourceWeight)
    (hsrc : ∀ o ∈ cfg.operators, o.source_id = cfg.source_id)
    (h : set_distribution_config db cfg = .ok (db', fresh)) :
    weightsFor db' cfg.source_id = cfgRows cfg ∧
    fresh = cfgRows cfg ∧
    (∀ s, s ≠ cfg.source_id → weightsFor db' s = weightsFor db s) ∧
    ((db.weights.map wkey).Nodup → (db'.weights.map wkey).Nodup) := by
  unfold set_distribution_config at h
  by_cases h1 : source_exists db cfg.source_id
  swap
  · rw [if_neg h1] at h
    exact absurd h (by simp)
  rw [if_pos h1] at h
  by_cases h2 : ∀ o ∈ cfg.operators, ∃ op ∈ db.operators, op.id = o.operator_id
  swap
  · rw [if_neg h2] at h
    exact absurd h (by simp)
  rw [if_pos h2] at h
  by_cases h3 : ((cfgRows cfg).map wkey).Nodup ∧
      ∀ f ∈ cfgRows cfg, wkey f ∉
        (db.weights.filter (fun w => !decide (w.source_id = cfg.source_id))).map wkey
  swap
  · rw [if_neg h3] at h
    exact absurd h (by simp)
  rw [if_pos h3] at h
  obtain ⟨hdb', hfresh⟩ := Prod.mk.injEq .. ▸ Except.ok.inj h
  subst hfresh
  have hrows : ∀ x ∈ cfgRows cfg, x.source_id = cfg.source_id := by
    intro x hx
    obtain ⟨o, ho, rfl⟩ := List.mem_map.mp hx
    exact hsrc o ho
  have hweights : db'.weights =
      db.weights.filter (fun w => !decide (w.source_id = cfg.source_id)) ++ cfgRows cfg := by
    rw [← hdb']
  refine ⟨?_, rfl, ?_, ?_⟩
  · rw [weightsFor, hweights, List.filter_append]
    have hkept : (db.weights.filter
        (fun w => !decide (w.source_id = cfg.source_id))).filter
        (fun w => decide (w.source_id = cfg.source_id)) = [] := by
      rw [List.filter_filter]
      apply List.filter_eq_nil_iff.mpr
      intro w _
      by_cases hw : w.source_id = cfg.source_id <;> simp [hw]
    have hfre : (cfgRows cfg).filter
        (fun w => decide (w.source_id = cfg.source_id)) = cfgRows cfg :=
      List.filter_eq_self.mpr (fun w hw => decide_eq_true (hrows w hw))
    rw [hkept, hfre, List.nil_append]
  · intro s hs
    rw [weightsFor, weightsFor, hweights, List.filter_append]
    have hfre : (cfgRows cfg).filter (fun w => decide (w.source_id = s)) = [] := by
      apply List.filter_eq_nil_iff.mpr
      intro w hw
      simp only [hrows w hw, decide_eq_true_eq]
      exact fun e => hs e.symm
    have hkept : (db.weights.filter
        (fun w => !decide (w.source_id = cfg.source_id))).filter
        (fun w => decide (w.source_id = s)) =
        db.weights.filter (fun w => decide (w.source_id = s)) := by
      rw [List.filter_filter]
      apply List.filter_congr
      intro w _
      by_cases hw : w.source_id = s
      · simp [hw, hs]
      · simp [hw]
    rw [hfre, hkept, List.append_nil]
  · intro hnd
    rw [hweights, List.map_append]
    rw [List.nodup_append]
    refine ⟨hnd.sublist (List.Sublist.map wkey (List.filter_sublist _)), h3.1, ?_⟩
    intro a ha hb
    obtain ⟨f, hf, rfl⟩ := List.mem_map.mp hb
    exact h3.2 f hf ha

theorem C9_witness :
    weightsFor ⟨[⟨1, "O", true, 10⟩], [⟨1, "S"⟩], [⟨1, 1, 10⟩], []⟩ 1 =
      cfgRows ⟨1, [⟨1, 1, 10⟩]⟩ :=
  (C9_replace_config ⟨[⟨1, "O", true, 10⟩], [⟨1, "S"⟩], [⟨9, 1, 7⟩], []⟩
    ⟨1, [⟨1, 1, 10⟩]⟩ ⟨[⟨1, "O", true, 10⟩], [⟨1, "S"⟩], [⟨1, 1, 10⟩], []⟩
    [⟨1, 1, 10⟩] (by decide) rfl).1

/-! ### Sequential-execution lemmas for the capacity scenario -/

/-- Contacts assigned to operator `i`, whatever their status. -/
def assignedCount (db : DB) (i : Nat) : Nat :=
  (db.contacts.filter (fun c => decide (c.operator_id = some i))).length

lemma create_contact_tables (db : DB) (src : Nat) (r : ℚ) :
    (create_contact db src r).operators = db.operators ∧
    (create_contact db src r).sources = db.sources ∧
    (create_contact db src r).weights = db.weights := by
  unfold create_contact
  cases hsel : select_operator db src false r with
  | error e => exact ⟨rfl, rfl, rfl⟩
  | ok opt => exact ⟨rfl, rfl, rfl⟩

lemma current_load_append (db : DB) (c : ContactT) (i : Nat) :
    current_load { db with contacts := db.contacts ++ [c] } i =
      current_load db i +
        (if decide (c.operator_id = some i) && activeStatus c.status then 1 else 0) := by
  unfold current_load
  rw [List.filter_append, List.length_append]
  congr 1
  cases hp : decide (c.operator_id = some i) && activeStatus c.status <;>
    simp [List.filter, hp]

lemma scenario_step (db : DB) (r : ℚ)
    (hop : db.operators = [opA, opB])
    (hsrcs : db.sources = [⟨1, "S"⟩])
    (hw : db.weights = [⟨1, 1, 70⟩, ⟨2, 1, 30⟩])
    (h1 : current_load db 1 ≤ 3) (h2 : current_load db 2 ≤ 2) :
    (create_contact db 1 r).operators = [opA, opB] ∧
    (create_contact db 1 r).sources = [⟨1, "S"⟩] ∧
    (create_contact db 1 r).weights = [⟨1, 1, 70⟩, ⟨2, 1, 30⟩] ∧
    current_load (create_contact db 1 r) 1 ≤ 3 ∧
    current_load (create_contact db 1 r) 2 ≤ 2 := by
  obtain ⟨ho, hs, hwe⟩ := create_contact_tables db 1 r
  refine ⟨ho.trans hop, hs.trans hsrcs, hwe.trans hw, ?_, ?_⟩ <;>
  · unfold create_contact
    cases hsel : select_operator db 1 false r with
    | error e => assumption
    | ok opt =>
      cases opt with
      | none =>
        rw [current_load_append]
        simp only [Option.map_none]
        norm_num
        assumption
      | some op =>
        have helig := select_some_eligible hsel
        have hmem : op ∈ [opA, opB] := hop ▸ helig.1
        have hlt := helig.2.2.2
        rw [current_load_append]
        simp only [Option.map_some]
        rcases List.mem_cons.mp hmem with rfl | hmem
        · simp only [opA] at hlt ⊢
          first
          | (show current_load db 1 + _ ≤ 3
             simp only [activeStatus]
             norm_num
             omega)
          | (show current_load db 2 + _ ≤ 2
             norm_num
             omega)
        · rcases List.mem_cons.mp hmem with rfl | hmem
          · simp only [opB] at hlt ⊢
            first
            | (show current_load db 1 + _ ≤ 3
               norm_num
               omega)
            | (show current_load db 2 + _ ≤ 2
               simp only [activeStatus]
               norm_num
               omega)
          · simp at hmem

lemma scenario_run_inv (rs : List ℚ) (db : DB)
    (hop : db.operators = [opA, opB])
    (hsrcs : db.sources = [⟨1, "S"⟩])
    (hw : db.weights = [⟨1, 1, 70⟩, ⟨2, 1, 30⟩])
    (h1 : current_load db 1 ≤ 3) (h2 : current_load db 2 ≤ 2) :
    (run db 1 rs).operators = [opA, opB] ∧
    (run db 1 rs).sources = [⟨1, "S"⟩] ∧
    (run db 1 rs).weights = [⟨1, 1, 70⟩, ⟨2, 1, 30⟩] ∧
    current_load (run db 1 rs) 1 ≤ 3 ∧
    current_load (run db 1 rs) 2 ≤ 2 := by
  induction rs generalizing db with
  | nil => exact ⟨hop, hsrcs, hw, h1, h2⟩
  | cons r rs ih =>
    obtain ⟨s1, s2, s3, s4, s5⟩ := scenario_step db r hop hsrcs hw h1 h2
    exact ih (create_contact db 1 r) s1 s2 s3 s4 s5

lemma run_status_new (db : DB) (src : Nat) (rs : List ℚ)
    (hstat : ∀ c ∈ db.contacts, c.status = "new") :
    ∀ c ∈ (run db src rs).contacts, c.status = "new" := by
  induction rs generalizing db with
  | nil => exact hstat
  | cons r rs ih =>
    have hr : run db src (r :: rs) = run (create_contact db src r) src rs := rfl
    rw [hr]
    refine ih _ ?_
    show ∀ c ∈ (create_contact db src r).contacts, c.status = "new"
    unfold create_contact
    cases hsel : select_operator db src false r with
    | error e => exact hstat
    | ok opt =>
      intro c hc
      rcases List.mem_append.mp hc with h | h
      · exact hstat c h
      · rw [List.mem_singleton.mp h]

lemma assignedCount_eq_load (db : DB) (i : Nat)
    (hstat : ∀ c ∈ db.contacts, c.status = "new") :
    assignedCount db i = current_load db i := by
  unfold assignedCount current_load
  congr 1
  apply List.filter_congr
  intro c hc
  rw [hstat c hc]
  simp [activeStatus]

lemma scenario_capacity_none (db : DB) (r : ℚ)
    (hop : db.operators = [opA, opB])
    (hsrcs : db.sources = [⟨1, "S"⟩])
    (hw : db.weights = [⟨1, 1, 70⟩, ⟨2, 1, 30⟩])
    (h1 : 3 ≤ current_load db 1) (h2 : 2 ≤ current_load db 2) :
    select_operator db 1 false r = .ok none := by
  have hod : operators_data db 1 =
      [⟨opA, 70, current_load db 1⟩, ⟨opB, 30, current_load db 2⟩] := by
    unfold operators_data
    rw [hw, hop]
    simp [opA, opB]
  have hga : get_available_operators db 1 false = .ok [] := by
    refine get_available_ok_iff.mpr ⟨?_, rfl, ?_⟩
    · rw [source_exists, hsrcs]
      exact ⟨⟨1, "S"⟩, by simp, rfl⟩
    · refine (List.filter_eq_nil_iff.mpr ?_).symm
      intro c hc
      rw [hod] at hc
      rcases List.mem_cons.mp hc with rfl | hc
      · simp only [opA, decide_eq_true_eq]
        omega
      · rcases List.mem_cons.mp hc with rfl | hc
        · simp only [opB, decide_eq_true_eq]
          omega
        · simp at hc
  exact select_of_nil r hga

/-- C6: under sequential contact creation against source S configured with
A(weight 70, max load 3) and B(weight 30, max load 2), after any sequence of
selections at most 3 contacts are assigned to A and at most 2 to B; once
both operators are at capacity every further selection returns absence; and
in general no sequential selection ever chooses an operator whose active
load already equals or exceeds its `max_load`. -/
theorem C6_sequential_capacity (rs : List ℚ) (r : ℚ) :
    assignedCount (run scenarioDB 1 rs) 1 ≤ 3 ∧
    assignedCount (run scenarioDB 1 rs) 2 ≤ 2 ∧
    (3 ≤ current_load (run scenarioDB 1 rs) 1 →
      2 ≤ current_load (run scenarioDB 1 rs) 2 →
      select_operator (run scenarioDB 1 rs) 1 false r = .ok none) ∧
    (∀ (db : DB) (src : Nat) (q : ℚ) (op : OperatorT),
      select_operator db src false q = .ok (some op) →
      (current_load db op.id : Int) < op.max_load) := by
  obtain ⟨hop, hsrcs, hw, h1, h2⟩ :=
    scenario_run_inv rs scenarioDB rfl rfl rfl (by decide) (by decide)
  have hstat := run_status_new scenarioDB 1 rs (by simp [scenarioDB])
  refine ⟨?_, ?_, ?_, ?_⟩
  · rw [assignedCount_eq_load _ _ hstat]
    exact h1
  · rw [assignedCount_eq_load _ _ hstat]
    exact h2
  · intro hc1 hc2
    exact scenario_capacity_none _ r hop hsrcs hw hc1 hc2
  · intro db src q op hsel
    exact (select_some_eligible hsel).2.2.2

theorem C6_witness :
    assignedCount (run scenarioDB 1 [0, 0, 0, 0, 0]) 1 ≤ 3 ∧
    select_operator (run scenarioDB 1 [0, 0, 0, 0, 0]) 1 false 0 = .ok none :=
  ⟨(C6_sequential_capacity [0, 0, 0, 0, 0] 0).1,
    (C6_sequential_capacity [0, 0, 0, 0, 0] 0).2.2.1
      (by norm_num [run, create_contact, select_operator, get_available_operators,
        operators_data, scenarioDB, opA, opB, current_load, total_weight, pickLoop,
        activeStatus, source_exists])
      (by norm_num [run, create_contact, select_operator, get_available_operators,
        operators_data, scenarioDB, opA, opB, current_load, total_weight, pickLoop,
        activeStatus, source_exists])⟩

end CRM
